import Mathlib

/-!
Verification of the `plato-hook-helper` event channel (`src/lib.rs`).

The library is a small duplex protocol adapter: a `PlatoHelper` holds one
writer (the output sink) and one reader (the input source).  It offers
`display_notification`, `set_wifi` (both serialize a fixed-shape request with
`serde_json::to_string` and write the raw bytes with `write_all`) and
`wait_for_network_blocking` (which wraps the reader in a fresh `BufReader`,
repeatedly calls `read_line` and returns the first line that deserializes as a
`NetworkEvent`).

The embedding below models strings as lists of characters, the sink as either
a growable buffer (like the `Vec` used by the repository's tests) or a sink
whose next write fails, and the source as either a cursor over a fixed
character sequence (like `std::io::Cursor`, or a closed pipe once the data is
exhausted) or a source whose reads fail.  `BufReader` buffering (capacity 8192,
`fill_buf`/`consume` semantics of `read_until`) is modelled explicitly, since
the per-call `BufReader` is observable: bytes pulled into its buffer but not
returned are discarded when `read_json_blocking` returns.  `serde_json`
serialization and the derived `NetworkEvent` deserializer are modelled
character by character: compact output with the serializer's escape table, and
a parser that accepts a JSON object (fields in any order, unknown fields
skipped, duplicate known fields rejected, both named fields required) or the
sequence form accepted by derived struct deserializers, with trailing
whitespace allowed and any other trailing input rejected, as
`serde_json::from_str` does.  The blocking read loop can genuinely diverge, so
it takes explicit fuel; returning `none` means the loop is still running after
that many iterations.
-/

set_option maxRecDepth 8192

namespace Plato

/-- Kind of a modelled `std::io::Error`; `other` is `ErrorKind::Other`,
used by `write_json` to wrap serialization failures. -/
inductive IOErrorKind where
  | other
  | brokenPipe
deriving DecidableEq

/-- Modelled `std::io::Error`: a kind together with its message. -/
structure IOError where
  kind : IOErrorKind
  msg : String
deriving DecidableEq

/-- The output sink held by the helper (`W: Write`).  `buffer` behaves like the
`Vec`/`BufWriter` sink of the repository's tests: `write_all` appends and
succeeds.  `broken` models a sink whose `write_all` fails (e.g. a closed
pipe). -/
inductive Sink where
  | buffer (contents : String)
  | broken (e : IOError)
deriving DecidableEq

/-- Behaviour of `write_all` on the modelled sink. -/
def Sink.writeAll : Sink → String → Except IOError Sink
  | .buffer c, s => .ok (.buffer (c ++ s))
  | .broken e, _ => .error e

/-- The input source held by the helper (`R: Read`).  `cursor` behaves like
`std::io::Cursor`: each `read` yields up to the requested number of remaining
characters and yields nothing once exhausted (a closed source).  `erroring`
models a source whose `read` fails. -/
inductive Source where
  | cursor (data : List Char)
  | erroring (e : IOError)
deriving DecidableEq

/-- Number of characters still available from the source. -/
def Source.size : Source → Nat
  | .cursor data => data.length
  | .erroring _ => 0

/-- The status of the e-reader's Wi-Fi (`enum WifiStatus`). -/
inductive WifiStatus where
  | Enabled
  | Disabled

/-- The `impl From<WifiStatus> for bool` conversion. -/
def WifiStatus.toBool : WifiStatus → Bool
  | .Enabled => true
  | .Disabled => false

/-- The structure of a notification event (`struct NotificationEvent`). -/
structure NotificationEvent where
  type : String
  message : String
deriving DecidableEq

/-- The structure of a Wi-Fi event (`struct WifiEvent`). -/
structure WifiEvent where
  type : String
  enable : Bool
deriving DecidableEq

/-- The structure of a network event (`struct NetworkEvent`). -/
structure NetworkEvent where
  type : String
  status : String
deriving DecidableEq

/-- Lower-case hexadecimal digit, as used by `serde_json`'s `\u00XX` escapes. -/
def hexDigit (n : Nat) : Char :=
  if n < 10 then Char.ofNat (48 + n) else Char.ofNat (87 + n)

/-- The escape table of `serde_json`'s compact string serializer: `"` and `\`
get two-character escapes, the five control characters with short forms get
theirs, every other control character below U+0020 becomes `\u00XX` with
lower-case hex digits, and all remaining characters are emitted verbatim. -/
def escapeChar (c : Char) : List Char :=
  if c = '"' then ['\\', '"']
  else if c = '\\' then ['\\', '\\']
  else if c = Char.ofNat 8 then ['\\', 'b']
  else if c = '\t' then ['\\', 't']
  else if c = '\n' then ['\\', 'n']
  else if c = Char.ofNat 12 then ['\\', 'f']
  else if c = '\r' then ['\\', 'r']
  else if c.toNat < 32 then
    ['\\', 'u', '0', '0', hexDigit (c.toNat / 16), hexDigit (c.toNat % 16)]
  else [c]

/-- Escape every character of a string body. -/
def escapeList : List Char → List Char
  | [] => []
  | c :: cs => escapeChar c ++ escapeList cs

/-- Escaped form of a string, as `serde_json` emits it between the quotes. -/
def escapeString (s : String) : String :=
  String.mk (escapeList s.data)

/-- A JSON string literal: the escaped body surrounded by double quotes. -/
def quoteJson (s : String) : String :=
  "\"" ++ escapeString s ++ "\""

/-- Value of `serde_json::to_string` on a `NotificationEvent`: a compact JSON
object with the fields in declared order (`type`, then `message`). -/
def serializeNotificationEvent (e : NotificationEvent) : String :=
  "\x7b\"type\":" ++ quoteJson e.type ++ ",\"message\":" ++ quoteJson e.message ++ "\x7d"

/-- Value of `serde_json::to_string` on a `WifiEvent` (`type`, then
`enable`). -/
def serializeWifiEvent (e : WifiEvent) : String :=
  "\x7b\"type\":" ++ quoteJson e.type ++ ",\"enable\":" ++
    (if e.enable then "true" else "false") ++ "\x7d"

/-- Value of `serde_json::to_string` on a `NetworkEvent` (`type`, then
`status`), written at the character-list level. -/
def serializeNetworkEventData (e : NetworkEvent) : List Char :=
  '{' :: '"' :: 't' :: 'y' :: 'p' :: 'e' :: '"' :: ':' :: '"' ::
    (escapeList e.type.data ++
      '"' :: ',' :: '"' :: 's' :: 't' :: 'a' :: 't' :: 'u' :: 's' :: '"' :: ':' :: '"' ::
        (escapeList e.status.data ++ ['"', '}']))

/-- String form of the `NetworkEvent` serialization. -/
def serializeNetworkEvent (e : NetworkEvent) : String :=
  String.mk (serializeNetworkEventData e)

/-- The helper struct (`struct PlatoHelper`): one writer and one reader,
owned exclusively. -/
structure PlatoHelper where
  writer : Sink
  reader : Source
deriving DecidableEq

/-- Constructor `PlatoHelper::new`. -/
def PlatoHelper.new (writer : Sink) (reader : Source) : PlatoHelper :=
  ⟨writer, reader⟩

/-- Model of the private `write_json`: it receives the result of
`serde_json::to_string` for the value being written (an `Except`, since
`to_string` returns a `Result`; for the two fixed request shapes it always
succeeds), maps a serialization error to an I/O error of kind `Other`, and
otherwise writes the raw bytes to the sink with `write_all`, propagating its
error.  No newline is appended. -/
def write_json (h : PlatoHelper) (serialized : Except String String) :
    Except IOError Unit × PlatoHelper :=
  match serialized with
  | .error e => (.error ⟨.other, e⟩, h)
  | .ok json =>
    match h.writer.writeAll json with
    | .error e => (.error e, h)
    | .ok w => (.ok (), { h with writer := w })

/-- Public `display_notification`: builds a `NotificationEvent` with the fixed
`"notify"` discriminator and the caller's message, and hands its (always
successful) serialization to `write_json`. -/
def display_notification (h : PlatoHelper) (message : String) :
    Except IOError Unit × PlatoHelper :=
  let event : NotificationEvent := ⟨"notify", message⟩
  write_json h (.ok (serializeNotificationEvent event))

/-- Public `set_wifi`: builds a `WifiEvent` with the fixed `"setWifi"`
discriminator and the converted boolean, and hands its serialization to
`write_json`. -/
def set_wifi (h : PlatoHelper) (status : WifiStatus) :
    Except IOError Unit × PlatoHelper :=
  let event : WifiEvent := ⟨"setWifi", status.toBool⟩
  write_json h (.ok (serializeWifiEvent event))

/-- JSON whitespace, as `serde_json` skips it between tokens. -/
def isJsonWs (c : Char) : Bool :=
  c = ' ' || c = '\t' || c = '\n' || c = '\r'

/-- Drop leading JSON whitespace. -/
def skipWs (cs : List Char) : List Char :=
  cs.dropWhile isJsonWs

/-- Value of a hexadecimal digit character, either case. -/
def hexVal (c : Char) : Option Nat :=
  if 48 ≤ c.toNat ∧ c.toNat ≤ 57 then some (c.toNat - 48)
  else if 97 ≤ c.toNat ∧ c.toNat ≤ 102 then some (c.toNat - 87)
  else if 65 ≤ c.toNat ∧ c.toNat ≤ 70 then some (c.toNat - 55)
  else none

/-- Resolve one `\uXXXX` quad of hexadecimal digits. -/
def hexQuad (h1 h2 h3 h4 : Char) : Option Nat :=
  match hexVal h1, hexVal h2, hexVal h3, hexVal h4 with
  | some a, some b, some c, some d => some (((a * 16 + b) * 16 + c) * 16 + d)
  | _, _, _, _ => none

/-- The eight simple escapes of a JSON string. -/
def simpleEscape (e : Char) : Option Char :=
  if e = '"' then some '"'
  else if e = '\\' then some '\\'
  else if e = '/' then some '/'
  else if e = 'b' then some (Char.ofNat 8)
  else if e = 'f' then some (Char.ofNat 12)
  else if e = 'n' then some '\n'
  else if e = 'r' then some '\r'
  else if e = 't' then some '\t'
  else none

/-- Resolve a `\uXXXX` escape after the `\u`: four hexadecimal digits; a high
surrogate must be followed by a second escaped low surrogate (the pair is
combined), and a lone surrogate is rejected, as `serde_json::from_str` does. -/
def unicodeEscape : List Char → Option (Char × List Char)
  | h1 :: h2 :: h3 :: h4 :: rest =>
    (match hexQuad h1 h2 h3 h4 with
     | none => none
     | some n =>
       if 55296 ≤ n ∧ n ≤ 56319 then
         match rest with
         | b1 :: u1 :: g1 :: g2 :: g3 :: g4 :: rest4 =>
           if b1 = '\\' ∧ u1 = 'u' then
             match hexQuad g1 g2 g3 g4 with
             | none => none
             | some m =>
               if 56320 ≤ m ∧ m ≤ 57343 then
                 some (Char.ofNat (65536 + (n - 55296) * 1024 + (m - 56320)), rest4)
               else none
           else none
         | _ => none
       else if 56320 ≤ n ∧ n ≤ 57343 then none
       else some (Char.ofNat n, rest))
  | _ => none

/-- Outcome of scanning one character of a JSON string body: the closing
quote, one decoded character (literal or escape), or a syntax error (bad
escape, unescaped control character, or end of input). -/
inductive StrStep where
  | close (rest : List Char)
  | chr (ch : Char) (rest : List Char)
  | bad

/-- Scan one character of a JSON string body, resolving escapes. -/
def unescapeStep : List Char → StrStep
  | [] => .bad
  | c :: rest =>
    if c = '"' then .close rest
    else if c = '\\' then
      match rest with
      | [] => .bad
      | e :: rest2 =>
        if e = 'u' then
          match unicodeEscape rest2 with
          | none => .bad
          | some (ch, rest3) => .chr ch rest3
        else
          match simpleEscape e with
          | none => .bad
          | some ch => .chr ch rest2
    else if c.toNat < 32 then .bad
    else .chr c rest

/-- Parse the body of a JSON string literal after its opening quote by
iterating `unescapeStep` until the closing quote.  Every step consumes at
least one character, so the fuel — always instantiated above the input
length — never runs out. -/
def parseStringBodyFuel : Nat → List Char → Option (List Char × List Char)
  | 0, _ => none
  | fuel + 1, cs =>
    match unescapeStep cs with
    | .close rest => some ([], rest)
    | .chr ch rest => (parseStringBodyFuel fuel rest).map (fun p => (ch :: p.1, p.2))
    | .bad => none

/-- Parse the body of a JSON string literal after its opening quote, as
`serde_json` does: stop at an unescaped quote, resolve the eight simple
escapes and `\uXXXX` (with surrogate pairs combined and lone surrogates
rejected), and reject unescaped control characters.  Returns the decoded
characters and the input following the closing quote. -/
def parseStringBody (cs : List Char) : Option (List Char × List Char) :=
  parseStringBodyFuel (cs.length + 1) cs

/-- ASCII decimal digit test, for the JSON number grammar. -/
def isDig (c : Char) : Bool :=
  48 ≤ c.toNat && c.toNat ≤ 57

/-- Skip the optional fraction part of a JSON number. -/
def skipFrac : List Char → Option (List Char)
  | '.' :: r =>
    match r with
    | d :: r2 => if isDig d then some (r2.dropWhile isDig) else none
    | [] => none
  | cs => some cs

/-- Skip the optional exponent part of a JSON number. -/
def skipExp : List Char → Option (List Char)
  | [] => some []
  | e :: r =>
    if e = 'e' ∨ e = 'E' then
      let r2 := match r with
        | s :: r3 => if s = '+' ∨ s = '-' then r3 else s :: r3
        | [] => []
      match r2 with
      | d :: r4 => if isDig d then some (r4.dropWhile isDig) else none
      | [] => none
    else some (e :: r)

/-- Skip a JSON number after its optional minus sign: a single `0` or a
nonzero digit followed by digits, then fraction and exponent. -/
def skipNumberBody : List Char → Option (List Char)
  | [] => none
  | c :: r =>
    if c = '0' then (skipFrac r).bind skipExp
    else if isDig c then (skipFrac (r.dropWhile isDig)).bind skipExp
    else none

/-- Skip a complete JSON number, used when ignoring an unknown field. -/
def skipNumber : List Char → Option (List Char)
  | '-' :: r => skipNumberBody r
  | cs => skipNumberBody cs

/-- Check that the input starts with the given literal characters and return
the remainder. -/
def dropLit : List Char → List Char → Option (List Char)
  | [], cs => some cs
  | l :: ls, c :: cs => if c = l then dropLit ls cs else none
  | _ :: _, [] => none

mutual

/-- Skip one complete JSON value, as the derived deserializer does for an
unknown field (`IgnoredAny`).  Fuel bounds the recursion; the parser is run
with fuel exceeding the input length, and every recursive call consumes at
least one character. -/
def skipValue : Nat → List Char → Option (List Char)
  | 0, _ => none
  | fuel + 1, cs =>
    match cs with
    | [] => none
    | c :: rest =>
      if c = 'n' then dropLit ['u', 'l', 'l'] rest
      else if c = 't' then dropLit ['r', 'u', 'e'] rest
      else if c = 'f' then dropLit ['a', 'l', 's', 'e'] rest
      else if c = '"' then (parseStringBody rest).map Prod.snd
      else if c = '-' then skipNumber (c :: rest)
      else if isDig c then skipNumber (c :: rest)
      else if c = '[' then
        match skipWs rest with
        | ']' :: r => some r
        | r1 => skipArrayItems fuel r1
      else if c = '{' then
        match skipWs rest with
        | '}' :: r => some r
        | r1 => skipObjectItems fuel r1
      else none

/-- Skip the comma-separated elements of a non-empty JSON array. -/
def skipArrayItems : Nat → List Char → Option (List Char)
  | 0, _ => none
  | fuel + 1, cs =>
    match skipValue fuel (skipWs cs) with
    | none => none
    | some r =>
      match skipWs r with
      | ',' :: r2 => skipArrayItems fuel r2
      | ']' :: r2 => some r2
      | _ => none

/-- Skip the members of a non-empty JSON object. -/
def skipObjectItems : Nat → List Char → Option (List Char)
  | 0, _ => none
  | fuel + 1, cs =>
    match skipWs cs with
    | '"' :: r =>
      match parseStringBody r with
      | none => none
      | some (_, r2) =>
        match skipWs r2 with
        | ':' :: r3 =>
          match skipValue fuel (skipWs r3) with
          | none => none
          | some r4 =>
            match skipWs r4 with
            | ',' :: r5 => skipObjectItems fuel r5
            | '}' :: r5 => some r5
            | _ => none
        | _ => none
    | _ => none

end

/-- What follows a parsed member value inside the object form: another member
after a comma, the end of the object, or a syntax error. -/
inductive AfterValue where
  | more (rest : List Char)
  | done (rest : List Char)
  | bad

/-- Classify the input after a member's value. -/
def afterValue (cs : List Char) : AfterValue :=
  match skipWs cs with
  | ',' :: r => .more r
  | '}' :: r => .done r
  | _ => .bad

/-- End of the map: the derived deserializer requires both fields to have been
seen, and errors on a missing `type` or `status`. -/
def finishMap (ty st : Option String) (rest : List Char) :
    Option (NetworkEvent × List Char) :=
  match ty, st with
  | some t, some s => some (⟨t, s⟩, rest)
  | _, _ => none

/-- Position at a member's key: skip whitespace, require the opening quote,
parse the key string, then require the colon; returns the key and the input
positioned at the member's value (whitespace skipped), as the map access of
`serde_json` does between `next_key` and `next_value`. -/
def parseMemberKey (cs : List Char) : Option (String × List Char) :=
  match skipWs cs with
  | '"' :: r =>
    match parseStringBody r with
    | none => none
    | some (key, r2) =>
      match skipWs r2 with
      | ':' :: r3 => some (String.mk key, skipWs r3)
      | _ => none
  | _ => none

/-- Deserialize a `String` value, as `next_value::<String>` does: only a JSON
string literal is accepted. -/
def parseStringValue (cs : List Char) : Option (String × List Char) :=
  match cs with
  | '"' :: r =>
    match parseStringBody r with
    | none => none
    | some (v, r2) => some (String.mk v, r2)
  | _ => none

/-- Member loop of the derived `NetworkEvent` deserializer on a JSON object,
positioned at a key.  A repeated `type` or `status` key is a duplicate-field
error (detected before the value is read, as in the derived visitor); their
values must be JSON strings; unknown keys have their values skipped; after
each value a comma continues the loop and a closing brace ends the map. -/
def parseMembers : Nat → Option String → Option String → List Char →
    Option (NetworkEvent × List Char)
  | 0, _, _, _ => none
  | fuel + 1, ty, st, cs =>
    match parseMemberKey cs with
    | none => none
    | some (key, r4) =>
      if key = "type" then
        match ty with
        | some _ => none
        | none =>
          match parseStringValue r4 with
          | none => none
          | some (v, r6) =>
            match afterValue r6 with
            | .more r7 => parseMembers fuel (some v) st r7
            | .done r7 => finishMap (some v) st r7
            | .bad => none
      else if key = "status" then
        match st with
        | some _ => none
        | none =>
          match parseStringValue r4 with
          | none => none
          | some (v, r6) =>
            match afterValue r6 with
            | .more r7 => parseMembers fuel ty (some v) r7
            | .done r7 => finishMap ty (some v) r7
            | .bad => none
      else
        match skipValue fuel r4 with
        | none => none
        | some r5 =>
          match afterValue r5 with
          | .more r7 => parseMembers fuel ty st r7
          | .done r7 => finishMap ty st r7
          | .bad => none

/-- Sequence form accepted by derived struct deserializers: a two-element JSON
array holding the `type` and `status` strings in declared order; anything
else (wrong length, non-string elements) is rejected. -/
def parseSeqForm (cs : List Char) : Option (NetworkEvent × List Char) :=
  match skipWs cs with
  | '"' :: r1 =>
    match parseStringBody r1 with
    | none => none
    | some (t, r2) =>
      match skipWs r2 with
      | ',' :: r3 =>
        match skipWs r3 with
        | '"' :: r4 =>
          match parseStringBody r4 with
          | none => none
          | some (st, r5) =>
            match skipWs r5 with
            | ']' :: r6 => some (⟨String.mk t, String.mk st⟩, r6)
            | _ => none
        | _ => none
      | _ => none
  | _ => none

/-- Model of `serde_json::from_str::<NetworkEvent>`: skip leading whitespace,
accept a JSON object (member loop above; an immediately closed object is a
missing-field error) or the array form, then require only whitespace to
remain, returning `none` on any error. -/
def fromStrNetworkEvent (s : String) : Option NetworkEvent :=
  let body :=
    match skipWs s.data with
    | '{' :: r =>
      match skipWs r with
      | '}' :: _ => none
      | _ => parseMembers (s.data.length + 1) none none r
    | '[' :: r => parseSeqForm r
    | _ => none
  match body with
  | some (ev, rest) => if skipWs rest = [] then some ev else none
  | none => none

/-- Default capacity of `std::io::BufReader`, in bytes. -/
def bufCapacity : Nat := 8192

/-- Split a chunk at its first newline, as `read_until` scans the buffer
returned by `fill_buf` with `memchr`: if a newline is found the first
component includes it and the second is the remainder; otherwise the whole
chunk is consumed. -/
def splitAtNl : List Char → List Char × Option (List Char)
  | [] => ([], none)
  | c :: cs =>
    if c = '\n' then ([c], some cs)
    else
      match splitAtNl cs with
      | (pre, o) => (c :: pre, o)

/-- State of the `BufReader` wrapped around the helper's reader: the buffered
but unconsumed characters, and the underlying source. -/
structure BufReader where
  buf : List Char
  src : Source
deriving DecidableEq

/-- One `read_line` call (`read_until b'\n'`), with fuel: when the buffer is
empty, `fill_buf` reads up to `bufCapacity` characters from the source (an
empty read is end of input, reported as success with whatever has been
accumulated, like `Ok(0)`); the filled or existing buffer is scanned for a
newline; a chunk without one is consumed entirely and the loop continues.
`readLine` below always supplies sufficient fuel, so the fuel-exhausted
equation is never reached. -/
def readLineFuel : Nat → BufReader → List Char → Except IOError (List Char) × BufReader
  | 0, br, acc => (.ok acc, br)
  | _ + 1, ⟨[], .erroring e⟩, _ => (.error e, ⟨[], .erroring e⟩)
  | _ + 1, ⟨[], .cursor []⟩, acc => (.ok acc, ⟨[], .cursor []⟩)
  | fuel + 1, ⟨[], .cursor (d :: ds)⟩, acc =>
    match splitAtNl ((d :: ds).take bufCapacity) with
    | (pre, some post) => (.ok (acc ++ pre), ⟨post, .cursor ((d :: ds).drop bufCapacity)⟩)
    | (pre, none) => readLineFuel fuel ⟨[], .cursor ((d :: ds).drop bufCapacity)⟩ (acc ++ pre)
  | fuel + 1, ⟨b :: bs, src⟩, acc =>
    match splitAtNl (b :: bs) with
    | (pre, some post) => (.ok (acc ++ pre), ⟨post, src⟩)
    | (pre, none) => readLineFuel fuel ⟨[], src⟩ (acc ++ pre)

/-- One `read_line` call with sufficient fuel: each loop iteration consumes at
least one character from the buffer or the source, so `size + buf + 1` steps
always reach a return. -/
def BufReader.readLine (br : BufReader) (acc : List Char) :
    Except IOError (List Char) × BufReader :=
  readLineFuel (br.src.size + br.buf.length + 1) br acc

/-- The loop of `read_json_blocking`: clear the line buffer, `read_line`
(propagating its error), try `serde_json::from_str`; return the first line
that deserializes, and silently retry on a line that does not.  The loop can
run forever (for instance at end of input, where `read_line` keeps returning
an empty line), so it takes fuel; `none` means no result after that many
iterations. -/
def read_json_loop : Nat → BufReader → Option (Except IOError NetworkEvent × BufReader)
  | 0, _ => none
  | fuel + 1, br =>
    match br.readLine [] with
    | (.error e, br2) => some (.error e, br2)
    | (.ok line, br2) =>
      match fromStrNetworkEvent (String.mk line) with
      | some ev => some (.ok ev, br2)
      | none => read_json_loop fuel br2

/-- Private `read_json_blocking`: wrap the reader in a fresh `BufReader` (empty
buffer) and run the loop.  When the loop returns, the `BufReader` is dropped:
only the underlying source survives in the helper, and the characters left in
the drop-time buffer are lost. -/
def read_json_blocking (fuel : Nat) (h : PlatoHelper) :
    Option (Except IOError NetworkEvent × PlatoHelper) :=
  match read_json_loop fuel ⟨[], h.reader⟩ with
  | none => none
  | some (res, br) => some (res, { h with reader := br.src })

/-- Public `wait_for_network_blocking`: exactly `read_json_blocking` at type
`NetworkEvent`. -/
def wait_for_network_blocking (fuel : Nat) (h : PlatoHelper) :
    Option (Except IOError NetworkEvent × PlatoHelper) :=
  read_json_blocking fuel h

/-- A JSON value usable as an object member in the inbound-line families the
theorems quantify over: null, a boolean, or a string. -/
inductive JVal where
  | null
  | jbool (b : Bool)
  | jstr (s : String)
deriving DecidableEq

/-- Render one of these JSON values. -/
def renderJVal : JVal → List Char
  | .null => ['n', 'u', 'l', 'l']
  | .jbool true => ['t', 'r', 'u', 'e']
  | .jbool false => ['f', 'a', 'l', 's', 'e']
  | .jstr s => '"' :: (escapeList s.data ++ ['"'])

/-- Render one object member `"key":value` in compact form. -/
def renderMember : String × JVal → List Char
  | (k, v) => '"' :: (escapeList k.data ++ '"' :: ':' :: renderJVal v)

/-- Render the members of an object followed by the closing brace. -/
def renderMembersTail : List (String × JVal) → List Char
  | [] => ['}']
  | m :: ms =>
    renderMember m ++
      match ms with
      | [] => ['}']
      | _ :: _ => ',' :: renderMembersTail ms

/-- Render a whole JSON object with the given members, in compact form. -/
def renderObject (ms : List (String × JVal)) : String :=
  String.mk ('{' :: renderMembersTail ms)

/-- Effect of one member on the deserializer's field state: a repeated or
non-string `type`/`status` is an error, an unknown key changes nothing. -/
def updMember (ty st : Option String) (k : String) (v : JVal) :
    Option (Option String × Option String) :=
  if k = "type" then
    match ty with
    | some _ => none
    | none =>
      match v with
      | .jstr t => some (some t, st)
      | .null => none
      | .jbool _ => none
  else if k = "status" then
    match st with
    | some _ => none
    | none =>
      match v with
      | .jstr s => some (ty, some s)
      | .null => none
      | .jbool _ => none
  else some (ty, st)

/-- Field state after processing a member list, or `none` on error. -/
def foldMembers : Option String → Option String → List (String × JVal) →
    Option (Option String × Option String)
  | ty, st, [] => some (ty, st)
  | ty, st, (k, v) :: ms =>
    match updMember ty st k v with
    | none => none
    | some (ty2, st2) => foldMembers ty2 st2 ms

/-! ### Verified properties -/

lemma read_json_loop_eof (fuel : Nat) :
    read_json_loop fuel ⟨[], Source.cursor []⟩ = none := by
  induction fuel with
  | zero => rfl
  | succ n ih =>
    have h1 : (BufReader.mk [] (Source.cursor [])).readLine [] =
        (.ok [], ⟨[], Source.cursor []⟩) := rfl
    have h2 : fromStrNetworkEvent (String.mk []) = none := rfl
    simp only [read_json_loop, h1, h2]
    exact ih

lemma readLine_cursor_nil (buf acc : List Char) :
    ∃ line buf2, BufReader.readLine ⟨buf, Source.cursor []⟩ acc =
      (.ok line, ⟨buf2, Source.cursor []⟩) := by
  cases buf with
  | nil => exact ⟨acc, [], rfl⟩
  | cons b bs =>
    show ∃ line buf2,
      readLineFuel (Source.size (Source.cursor []) + (b :: bs).length + 1)
        ⟨b :: bs, Source.cursor []⟩ acc = (.ok line, ⟨buf2, Source.cursor []⟩)
    simp only [Source.size, List.length_cons, Nat.zero_add]
    rcases h : splitAtNl (b :: bs) with ⟨pre, o⟩
    cases o with
    | some post =>
      refine ⟨acc ++ pre, post, ?_⟩
      simp only [readLineFuel, h]
    | none =>
      refine ⟨acc ++ pre, [], ?_⟩
      simp only [readLineFuel, h]

lemma read_json_loop_cursor_nil_src (fuel : Nat) :
    ∀ (buf : List Char) (res : Except IOError NetworkEvent) (br2 : BufReader),
      read_json_loop fuel ⟨buf, Source.cursor []⟩ = some (res, br2) →
      br2.src = Source.cursor [] := by
  induction fuel with
  | zero => intro buf res br2 h; exact absurd h (by simp [read_json_loop])
  | succ n ih =>
    intro buf res br2 h
    obtain ⟨line, buf2, hline⟩ := readLine_cursor_nil buf []
    cases hp : fromStrNetworkEvent (String.mk line) with
    | some ev =>
      simp only [read_json_loop, hline, hp, Option.some.injEq, Prod.mk.injEq] at h
      rw [← h.2]
    | none =>
      simp only [read_json_loop, hline, hp] at h
      exact ih buf2 res br2 h





lemma readLine_small (data acc : List Char) (h : data.length ≤ bufCapacity) :
    ∃ line buf2, BufReader.readLine ⟨[], Source.cursor data⟩ acc =
      (.ok line, ⟨buf2, Source.cursor []⟩) := by
  cases data with
  | nil => exact ⟨acc, [], rfl⟩
  | cons d ds =>
    have htake : (d :: ds).take bufCapacity = d :: ds := List.take_of_length_le h
    have hdrop : (d :: ds).drop bufCapacity = [] := List.drop_eq_nil_of_le h
    show ∃ line buf2,
      readLineFuel (Source.size (Source.cursor (d :: ds)) + ([] : List Char).length + 1)
        ⟨[], Source.cursor (d :: ds)⟩ acc = (.ok line, ⟨buf2, Source.cursor []⟩)
    simp only [Source.size, List.length_nil, List.length_cons, Nat.add_zero]
    rcases hs : splitAtNl (d :: ds) with ⟨pre, o⟩
    cases o with
    | some post =>
      refine ⟨acc ++ pre, post, ?_⟩
      simp only [readLineFuel, htake, hdrop, hs]
    | none =>
      refine ⟨acc ++ pre, [], ?_⟩
      simp only [readLineFuel, htake, hdrop, hs]

lemma read_json_loop_small_src (fuel : Nat) (data : List Char)
    (res : Except IOError NetworkEvent) (br2 : BufReader)
    (hlen : data.length ≤ bufCapacity)
    (h : read_json_loop fuel ⟨[], Source.cursor data⟩ = some (res, br2)) :
    br2.src = Source.cursor [] := by
  cases fuel with
  | zero => exact absurd h (by simp [read_json_loop])
  | succ n =>
    obtain ⟨line, buf2, hline⟩ := readLine_small data [] hlen
    cases hp : fromStrNetworkEvent (String.mk line) with
    | some ev =>
      simp only [read_json_loop, hline, hp, Option.some.injEq, Prod.mk.injEq] at h
      rw [← h.2]
    | none =>
      simp only [read_json_loop, hline, hp] at h
      exact read_json_loop_cursor_nil_src n buf2 res br2 h





/-- Claim C1: for every text message `m`, `display_notification m` writes to the
sink exactly the bytes of the compact JSON object with the literal `"type"`
discriminator `notify` followed by the JSON-escaped message, with the keys in
declared order, no trailing newline and nothing else, and returns unit. -/
theorem c1_display_notification_exact_bytes (m c : String) (r : Source) :
    display_notification ⟨Sink.buffer c, r⟩ m =
      (.ok (), ⟨Sink.buffer (c ++ ("\x7b\"type\":\"notify\",\"message\":" ++ quoteJson m ++ "\x7d")), r⟩) := rfl

/-- Claim C4: `set_wifi` writes exactly the bytes of the `setWifi` request with
`enable` equal to `true` for `Enabled` and `false` for `Disabled`, with no
other bytes, and the `WifiStatus`-to-boolean conversion maps `Enabled` to
`true` and `Disabled` to `false`. -/
theorem c4_set_wifi_exact_bytes :
    (∀ (c : String) (r : Source),
        set_wifi ⟨Sink.buffer c, r⟩ .Enabled =
          (.ok (), ⟨Sink.buffer (c ++ "\x7b\"type\":\"setWifi\",\"enable\":true\x7d"), r⟩)) ∧
    (∀ (c : String) (r : Source),
        set_wifi ⟨Sink.buffer c, r⟩ .Disabled =
          (.ok (), ⟨Sink.buffer (c ++ "\x7b\"type\":\"setWifi\",\"enable\":false\x7d"), r⟩)) ∧
    WifiStatus.toBool .Enabled = true ∧ WifiStatus.toBool .Disabled = false :=
  ⟨fun _ _ => rfl, fun _ _ => rfl, rfl, rfl⟩

/-- Claim C7: for every caller input, the outgoing message's `"type"`
discriminator is the literal fixed by the operation — `notify` for
`display_notification` and `setWifi` for `set_wifi` — and the caller input
only ever appears after it, so no input produces any other discriminator. -/
theorem c7_discriminator_fixed :
    (∀ (m c : String) (r : Source),
        (display_notification ⟨Sink.buffer c, r⟩ m).2.writer =
          Sink.buffer (c ++ ("\x7b\"type\":\"notify\",\"message\":" ++ quoteJson m ++ "\x7d"))) ∧
    (∀ (st : WifiStatus) (c : String) (r : Source),
        (set_wifi ⟨Sink.buffer c, r⟩ st).2.writer =
          Sink.buffer (c ++ ("\x7b\"type\":\"setWifi\",\"enable\":" ++
            (if st.toBool then "true" else "false") ++ "\x7d"))) :=
  ⟨fun _ _ _ => rfl, fun st _ _ => by cases st <;> rfl⟩

/-- Claim C8: on the write path a serialization failure is surfaced to the
caller as an I/O-class error (kind `Other`, never swallowed), a failure of the
underlying sink write is propagated immediately with no retry and no state
change, and on success the operation returns the unit result. -/
theorem c8_write_error_propagation :
    (∀ (h : PlatoHelper) (e : String), write_json h (.error e) = (.error ⟨.other, e⟩, h)) ∧
    (∀ (e : IOError) (r : Source) (json : String),
        write_json ⟨Sink.broken e, r⟩ (.ok json) = (.error e, ⟨Sink.broken e, r⟩)) ∧
    (∀ (m : String) (e : IOError) (r : Source),
        display_notification ⟨Sink.broken e, r⟩ m = (.error e, ⟨Sink.broken e, r⟩)) ∧
    (∀ (st : WifiStatus) (e : IOError) (r : Source),
        set_wifi ⟨Sink.broken e, r⟩ st = (.error e, ⟨Sink.broken e, r⟩)) ∧
    (∀ (c : String) (r : Source) (json : String),
        write_json ⟨Sink.buffer c, r⟩ (.ok json) = (.ok (), ⟨Sink.buffer (c ++ json), r⟩)) :=
  ⟨fun _ _ => rfl, fun _ _ _ => rfl, fun _ _ _ => rfl, fun _ _ _ => rfl, fun _ _ _ => rfl⟩

/-- Claim C10: the two write operations never consume any input from the
reader (the reader state is unchanged by them), and `wait_for_network_blocking`
never writes any bytes to the writer (whenever it returns, the writer is
unchanged). -/
theorem c10_frame_conditions :
    (∀ (h : PlatoHelper) (m : String), (display_notification h m).2.reader = h.reader) ∧
    (∀ (h : PlatoHelper) (st : WifiStatus), (set_wifi h st).2.reader = h.reader) ∧
    (∀ (fuel : Nat) (h : PlatoHelper) (res : Except IOError NetworkEvent × PlatoHelper),
        wait_for_network_blocking fuel h = some res → res.2.writer = h.writer) := by
  refine ⟨?_, ?_, ?_⟩
  · intro h m
    rcases h with ⟨w, r⟩
    cases w <;> rfl
  · intro h st
    rcases h with ⟨w, r⟩
    cases w <;> rfl
  · intro fuel h res hres
    unfold wait_for_network_blocking read_json_blocking at hres
    rcases heq : read_json_loop fuel ⟨[], h.reader⟩ with _ | ⟨r, br⟩
    · rw [heq] at hres; exact absurd hres (by simp)
    · rw [heq] at hres
      simp only [Option.some.injEq] at hres
      rw [← hres]

theorem c10_frame_conditions_witness :
    (wait_for_network_blocking 1
        ⟨Sink.buffer "x", Source.cursor ("\x7b\"type\":\"a\",\"status\":\"b\"\x7d").data⟩ =
      some (.ok ⟨"a", "b"⟩, ⟨Sink.buffer "x", Source.cursor []⟩)) ∧
    (((Except.ok ⟨"a", "b"⟩ : Except IOError NetworkEvent),
        (⟨Sink.buffer "x", Source.cursor []⟩ : PlatoHelper)).2.writer = Sink.buffer "x") :=
  ⟨rfl, c10_frame_conditions.2.2 1
    ⟨Sink.buffer "x", Source.cursor ("\x7b\"type\":\"a\",\"status\":\"b\"\x7d").data⟩ _ rfl⟩

/-- Claim C2 counterexample: on a closed source with no data, the claimed
IOError never materialises — there is no fuel bound at which the call has
returned anything at all, error or event (`read_line` reports end of input as
a successful empty read, not as an error, so the loop never exits). -/
theorem c2_counterexample :
    ¬ ∃ (fuel : Nat) (res : Except IOError NetworkEvent × PlatoHelper),
        wait_for_network_blocking fuel ⟨Sink.buffer "", Source.cursor []⟩ = some res := by
  rintro ⟨fuel, res, h⟩
  unfold wait_for_network_blocking read_json_blocking at h
  rw [read_json_loop_eof] at h
  exact Option.noConfusion h

/-- Claim C2 (amended): on a closed source with no further data,
`wait_for_network_blocking` never completes at all: `read_line` keeps
returning `Ok(0)` with an empty line, whose decode fails, so for every fuel
bound the loop is still running — it never returns an IOError and never
returns a default or empty `NetworkEvent`. -/
theorem c2_closed_source_never_returns (w : Sink) (fuel : Nat) :
    wait_for_network_blocking fuel ⟨w, Source.cursor []⟩ = none := by
  unfold wait_for_network_blocking read_json_blocking
  rw [read_json_loop_eof]

/-- Claim C3: the loop reads one line at a time, silently discards a line
whose decode fails and continues (with no bound on how many malformed lines
are skipped), and returns the first successfully decoded event immediately;
in particular, on the input lines `not json`, an empty object and a valid
network line it returns the `network`/`up` event and consumes all three lines
(the source is left empty). -/
theorem c3_skip_malformed :
    (∀ (fuel : Nat) (br br2 : BufReader) (line : List Char),
        br.readLine [] = (.ok line, br2) →
        fromStrNetworkEvent (String.mk line) = none →
        read_json_loop (fuel + 1) br = read_json_loop fuel br2) ∧
    (∀ (fuel : Nat) (br br2 : BufReader) (line : List Char) (ev : NetworkEvent),
        br.readLine [] = (.ok line, br2) →
        fromStrNetworkEvent (String.mk line) = some ev →
        read_json_loop (fuel + 1) br = some (.ok ev, br2)) ∧
    wait_for_network_blocking 3
        ⟨Sink.buffer "", Source.cursor ("not json\n\x7b\x7d\n\x7b\"type\":\"network\",\"status\":\"up\"\x7d").data⟩ =
      some (.ok ⟨"network", "up"⟩, ⟨Sink.buffer "", Source.cursor []⟩) := by
  refine ⟨?_, ?_, rfl⟩
  · intro fuel br br2 line hline hp
    simp only [read_json_loop, hline, hp]
  · intro fuel br br2 line ev hline hp
    simp only [read_json_loop, hline, hp]

theorem c3_skip_malformed_witness :
    read_json_loop 1 ⟨[], Source.cursor ['x', '\n']⟩ = read_json_loop 0 ⟨[], Source.cursor []⟩ :=
  c3_skip_malformed.1 0 ⟨[], Source.cursor ['x', '\n']⟩ ⟨[], Source.cursor []⟩ ['x', '\n'] rfl rfl

/-- Claim C5 counterexample: with two complete event lines on the source, the
first call returns the first event but leaves the source empty — the second
line was pulled into the per-call `BufReader` and discarded with it — so the
later line is not available to a subsequent call, which never returns. -/
theorem c5_counterexample :
    wait_for_network_blocking 1
        ⟨Sink.buffer "", Source.cursor
          ("\x7b\"type\":\"a\",\"status\":\"b\"\x7d\n\x7b\"type\":\"c\",\"status\":\"d\"\x7d\n").data⟩ =
      some (.ok ⟨"a", "b"⟩, ⟨Sink.buffer "", Source.cursor []⟩) ∧
    (∀ (fuel : Nat),
      wait_for_network_blocking fuel ⟨Sink.buffer "", Source.cursor []⟩ = none) := by
  refine ⟨rfl, ?_⟩
  intro fuel
  unfold wait_for_network_blocking read_json_blocking
  rw [read_json_loop_eof]

/-- Claim C5 (amended): the channel buffers up to a whole `BufReader` fill
(8192 bytes, typically many lines) before attempting decode, and the buffered
remainder is discarded when the call returns: for any input that fits in one
buffer fill, whenever `wait_for_network_blocking` returns, the entire source
has been consumed, so lines after the returned event's line are not available
to subsequent calls. -/
theorem c5_whole_source_consumed (w : Sink) (data : List Char) (fuel : Nat)
    (res : Except IOError NetworkEvent) (h2 : PlatoHelper)
    (hlen : data.length ≤ bufCapacity)
    (h : wait_for_network_blocking fuel ⟨w, Source.cursor data⟩ = some (res, h2)) :
    h2.reader = Source.cursor [] := by
  unfold wait_for_network_blocking read_json_blocking at h
  rcases heq : read_json_loop fuel ⟨[], Source.cursor data⟩ with _ | ⟨r, br⟩
  · rw [heq] at h; exact absurd h (by simp)
  · rw [heq] at h
    simp only [Option.some.injEq, Prod.mk.injEq] at h
    rw [← h.2]
    exact read_json_loop_small_src fuel data r br hlen heq

theorem c5_whole_source_consumed_witness :
    (("\x7b\"type\":\"a\",\"status\":\"b\"\x7d\n\x7b\"type\":\"c\",\"status\":\"d\"\x7d\n").data.length
        ≤ bufCapacity) ∧
    (PlatoHelper.mk (Sink.buffer "") (Source.cursor [])).reader = Source.cursor [] :=
  ⟨by decide, c5_whole_source_consumed (Sink.buffer "")
    ("\x7b\"type\":\"a\",\"status\":\"b\"\x7d\n\x7b\"type\":\"c\",\"status\":\"d\"\x7d\n").data 1
    (.ok ⟨"a", "b"⟩) ⟨Sink.buffer "", Source.cursor []⟩ (by decide) rfl⟩






lemma hexVal_hexDigit (n : Nat) (h : n < 16) : hexVal (hexDigit n) = some n := by
  interval_cases n <;> rfl

lemma unescapeStep_escapeChar (c : Char) (X : List Char) :
    unescapeStep (escapeChar c ++ X) = .chr c X := by
  by_cases h1 : c = '"'
  · subst h1
    simp [escapeChar, unescapeStep, simpleEscape]
  · by_cases h2 : c = '\\'
    · subst h2
      simp [escapeChar, unescapeStep, simpleEscape]
    · by_cases h3 : c = Char.ofNat 8
      · subst h3
        simp [escapeChar, unescapeStep, simpleEscape]
      · by_cases h4 : c = '\t'
        · subst h4
          simp [escapeChar, unescapeStep, simpleEscape, h3]
        · by_cases h5 : c = '\n'
          · subst h5
            simp [escapeChar, unescapeStep, simpleEscape, h3, h4]
          · by_cases h6 : c = Char.ofNat 12
            · subst h6
              simp [escapeChar, unescapeStep, simpleEscape, h3, h4, h5]
            · by_cases h7 : c = '\r'
              · subst h7
                simp [escapeChar, unescapeStep, simpleEscape, h3, h4, h5, h6]
              · by_cases h8 : c.toNat < 32
                · have hdiv : c.toNat / 16 < 16 := by omega
                  have hmod : c.toNat % 16 < 16 := by omega
                  have hx := hexVal_hexDigit _ hdiv
                  have hy := hexVal_hexDigit _ hmod
                  have hesc : escapeChar c =
                      ['\\', 'u', '0', '0', hexDigit (c.toNat / 16), hexDigit (c.toNat % 16)] := by
                    simp [escapeChar, h1, h2, h3, h4, h5, h6, h7, h8]
                  have h0 : hexVal '0' = some 0 := rfl
                  have hq : hexQuad '0' '0' (hexDigit (c.toNat / 16)) (hexDigit (c.toNat % 16)) =
                      some c.toNat := by
                    simp only [hexQuad, h0, hx, hy, Option.some.injEq]
                    omega
                  have hs1 : ¬(55296 ≤ c.toNat ∧ c.toNat ≤ 56319) := by omega
                  have hs2 : ¬(56320 ≤ c.toNat ∧ c.toNat ≤ 57343) := by omega
                  rw [hesc]
                  simp only [List.cons_append, List.nil_append]
                  simp [unescapeStep, unicodeEscape, hq, hs1, hs2, Char.ofNat_toNat]
                · have hesc : escapeChar c = [c] := by
                    simp [escapeChar, h1, h2, h3, h4, h5, h6, h7, h8]
                  rw [hesc]
                  simp [unescapeStep, h1, h2, h8]

lemma parseStringBodyFuel_escape (cs : List Char) :
    ∀ (fuel : Nat) (rest : List Char), (escapeList cs).length < fuel →
      parseStringBodyFuel fuel (escapeList cs ++ '"' :: rest) = some (cs, rest) := by
  induction cs with
  | nil =>
    intro fuel rest hf
    obtain ⟨f, rfl⟩ : ∃ f, fuel = f + 1 := ⟨fuel - 1, by omega⟩
    simp [escapeList, parseStringBodyFuel, unescapeStep]
  | cons c cs ih =>
    intro fuel rest hf
    have hlen : 1 ≤ (escapeChar c).length := by
      simp only [escapeChar]
      split_ifs <;> simp
    rw [show escapeList (c :: cs) = escapeChar c ++ escapeList cs from rfl] at hf ⊢
    have hf2 : (escapeChar c).length + (escapeList cs).length < fuel := by
      simpa [List.length_append] using hf
    obtain ⟨f, rfl⟩ : ∃ f, fuel = f + 1 := ⟨fuel - 1, by omega⟩
    rw [List.append_assoc]
    have hstep := unescapeStep_escapeChar c (escapeList cs ++ '"' :: rest)
    simp only [parseStringBodyFuel, hstep]
    rw [ih f rest (by omega)]
    rfl

lemma parseStringBody_escape (cs rest : List Char) :
    parseStringBody (escapeList cs ++ '"' :: rest) = some (cs, rest) := by
  apply parseStringBodyFuel_escape
  simp [List.length_append]
  omega





lemma skipWs_cons (c : Char) (cs : List Char) (h : isJsonWs c = false) :
    skipWs (c :: cs) = c :: cs := by
  simp [skipWs, List.dropWhile, h]

lemma skipWs_renderJVal (v : JVal) (rest : List Char) :
    skipWs (renderJVal v ++ rest) = renderJVal v ++ rest := by
  cases v with
  | null => simp only [renderJVal, List.cons_append]; rw [skipWs_cons 'n' _ rfl]
  | jbool b =>
    cases b with
    | false => simp only [renderJVal, List.cons_append]; rw [skipWs_cons 'f' _ rfl]
    | true => simp only [renderJVal, List.cons_append]; rw [skipWs_cons 't' _ rfl]
  | jstr s => simp only [renderJVal, List.cons_append]; rw [skipWs_cons '"' _ rfl]

lemma parseMemberKey_render (k : String) (v : JVal) (tail : List Char) :
    parseMemberKey (renderMember (k, v) ++ tail) = some (k, renderJVal v ++ tail) := by
  have h1 : renderMember (k, v) ++ tail =
      '"' :: (escapeList k.data ++ '"' :: ':' :: (renderJVal v ++ tail)) := by
    simp [renderMember, List.append_assoc]
  rw [h1]
  simp only [parseMemberKey]
  rw [skipWs_cons '"' _ rfl]
  simp only [parseStringBody_escape]
  show (match ':' :: (renderJVal v ++ tail) with
    | ':' :: r3 => some (String.mk k.data, skipWs r3)
    | _ => none) = some (k, renderJVal v ++ tail)
  rw [show (match ':' :: (renderJVal v ++ tail) with
    | ':' :: r3 => some (String.mk k.data, skipWs r3)
    | _ => none) = some (String.mk k.data, skipWs (renderJVal v ++ tail)) from rfl]
  rw [skipWs_renderJVal]

lemma parseStringValue_jstr (s : String) (tail : List Char) :
    parseStringValue (renderJVal (.jstr s) ++ tail) = some (s, tail) := by
  have h1 : renderJVal (JVal.jstr s) ++ tail = '"' :: (escapeList s.data ++ '"' :: tail) := by
    simp [renderJVal, List.append_assoc]
  rw [h1]
  simp only [parseStringValue, parseStringBody_escape]

lemma parseStringValue_null (tail : List Char) :
    parseStringValue (renderJVal .null ++ tail) = none := rfl

lemma parseStringValue_jbool (b : Bool) (tail : List Char) :
    parseStringValue (renderJVal (.jbool b) ++ tail) = none := by
  cases b <;> rfl

lemma skipValue_render (v : JVal) (rest : List Char) (fuel : Nat) :
    skipValue (fuel + 1) (renderJVal v ++ rest) = some rest := by
  cases v with
  | null => simp [renderJVal, skipValue, dropLit]
  | jbool b => cases b <;> simp [renderJVal, skipValue, dropLit]
  | jstr s =>
    have h1 : renderJVal (JVal.jstr s) ++ rest = '"' :: (escapeList s.data ++ '"' :: rest) := by
      simp [renderJVal, List.append_assoc]
    rw [h1]
    simp [skipValue, parseStringBody_escape]

lemma afterValue_comma (r : List Char) : afterValue (',' :: r) = .more r := by
  simp only [afterValue]
  rw [skipWs_cons ',' _ rfl]; rfl

lemma afterValue_brace (r : List Char) : afterValue ('}' :: r) = .done r := by
  simp only [afterValue]
  rw [skipWs_cons '}' _ rfl]; rfl

lemma renderJVal_len (v : JVal) : 2 ≤ (renderJVal v).length := by
  cases v with
  | null => simp [renderJVal]
  | jbool b => cases b <;> simp [renderJVal]
  | jstr s => simp [renderJVal]

lemma renderMember_len (m : String × JVal) : 5 ≤ (renderMember m).length := by
  rcases m with ⟨k, v⟩
  have := renderJVal_len v
  simp [renderMember, List.length_append]
  omega





lemma skipValue_render_le (v : JVal) (rest : List Char) (fuel : Nat) (h : 1 ≤ fuel) :
    skipValue fuel (renderJVal v ++ rest) = some rest := by
  obtain ⟨g, rfl⟩ : ∃ g, fuel = g + 1 := ⟨fuel - 1, by omega⟩
  exact skipValue_render v rest g

lemma parseMembers_render (ms : List (String × JVal)) :
    ∀ (ty st : Option String) (fuel : Nat),
      ms ≠ [] → (renderMembersTail ms).length < fuel →
      parseMembers fuel ty st (renderMembersTail ms) =
        (match foldMembers ty st ms with
         | some (some t, some s) => some (⟨t, s⟩, [])
         | _ => none) := by
  induction ms with
  | nil => intro _ _ _ h _; exact absurd rfl h
  | cons m ms ih =>
    rcases m with ⟨k, v⟩
    intro ty st fuel _ hf
    rcases ms with _ | ⟨m2, ms2⟩
    · have hrt : renderMembersTail [(k, v)] = renderMember (k, v) ++ ['}'] := rfl
      rw [hrt] at hf ⊢
      have hm := renderMember_len (k, v)
      simp only [List.length_append, List.length_cons, List.length_nil] at hf
      obtain ⟨F, rfl⟩ : ∃ F, fuel = F + 1 := ⟨fuel - 1, by omega⟩
      simp only [parseMembers, parseMemberKey_render]
      by_cases hk1 : k = "type"
      · subst hk1
        cases ty with
        | some t0 => simp [foldMembers, updMember]
        | none =>
          cases v with
          | jstr s =>
            rw [parseStringValue_jstr]
            simp only [afterValue_brace]
            cases st <;> simp [foldMembers, updMember, finishMap]
          | null =>
            rw [parseStringValue_null]
            simp [foldMembers, updMember]
          | jbool b =>
            rw [parseStringValue_jbool]
            simp [foldMembers, updMember]
      · by_cases hk2 : k = "status"
        · subst hk2
          simp only [if_neg hk1]
          cases st with
          | some s0 => simp [foldMembers, updMember, hk1]
          | none =>
            cases v with
            | jstr s =>
              rw [parseStringValue_jstr]
              simp only [afterValue_brace]
              cases ty <;> simp [foldMembers, updMember, finishMap, hk1]
            | null =>
              rw [parseStringValue_null]
              simp [foldMembers, updMember, hk1]
            | jbool b =>
              rw [parseStringValue_jbool]
              simp [foldMembers, updMember, hk1]
        · simp only [if_neg hk1, if_neg hk2]
          rw [skipValue_render_le v _ F (by omega)]
          simp only [afterValue_brace]
          cases ty <;> cases st <;>
            simp [foldMembers, updMember, finishMap, hk1, hk2]
    · have hrt : renderMembersTail ((k, v) :: m2 :: ms2) =
          renderMember (k, v) ++ ',' :: renderMembersTail (m2 :: ms2) := rfl
      rw [hrt] at hf ⊢
      have hm := renderMember_len (k, v)
      simp only [List.length_append, List.length_cons] at hf
      obtain ⟨F, rfl⟩ : ∃ F, fuel = F + 1 := ⟨fuel - 1, by omega⟩
      have hf2 : (renderMembersTail (m2 :: ms2)).length < F := by omega
      have hne2 : (m2 :: ms2 : List (String × JVal)) ≠ [] := by simp
      simp only [parseMembers, parseMemberKey_render]
      by_cases hk1 : k = "type"
      · subst hk1
        cases ty with
        | some t0 => simp [foldMembers, updMember]
        | none =>
          cases v with
          | jstr s =>
            rw [parseStringValue_jstr]
            simp only [afterValue_comma]
            rw [ih (some s) st F hne2 hf2]
            simp [foldMembers, updMember]
          | null =>
            rw [parseStringValue_null]
            simp [foldMembers, updMember]
          | jbool b =>
            rw [parseStringValue_jbool]
            simp [foldMembers, updMember]
      · by_cases hk2 : k = "status"
        · subst hk2
          simp only [if_neg hk1]
          cases st with
          | some s0 => simp [foldMembers, updMember, hk1]
          | none =>
            cases v with
            | jstr s =>
              rw [parseStringValue_jstr]
              simp only [afterValue_comma]
              rw [ih ty (some s) F hne2 hf2]
              simp [foldMembers, updMember, hk1]
            | null =>
              rw [parseStringValue_null]
              simp [foldMembers, updMember, hk1]
            | jbool b =>
              rw [parseStringValue_jbool]
              simp [foldMembers, updMember, hk1]
        · simp only [if_neg hk1, if_neg hk2]
          rw [skipValue_render_le v _ F (by omega)]
          simp only [afterValue_comma]
          rw [ih ty st F hne2 hf2]
          simp [foldMembers, updMember, hk1, hk2]


lemma foldMembers_complete (ms : List (String × JVal)) :
    ∀ (ty st : Option String) (t s : String),
      (ms.map Prod.fst).Nodup →
      ((("type", JVal.jstr t) ∈ ms ∧ ty = none) ∨ ("type" ∉ ms.map Prod.fst ∧ ty = some t)) →
      ((("status", JVal.jstr s) ∈ ms ∧ st = none) ∨ ("status" ∉ ms.map Prod.fst ∧ st = some s)) →
      foldMembers ty st ms = some (some t, some s) := by
  induction ms with
  | nil =>
    intro ty st t s _ ht hs
    rcases ht with ⟨hmem, _⟩ | ⟨_, rfl⟩
    · exact absurd hmem (List.not_mem_nil _)
    rcases hs with ⟨hmem, _⟩ | ⟨_, rfl⟩
    · exact absurd hmem (List.not_mem_nil _)
    rfl
  | cons m ms ih =>
    rcases m with ⟨k, v⟩
    intro ty st t s hnd ht hs
    simp only [List.map_cons, List.nodup_cons] at hnd
    obtain ⟨hknotin, hnd2⟩ := hnd
    by_cases hk1 : k = "type"
    · subst hk1
      rcases ht with ⟨hmem, rfl⟩ | ⟨hnotin, _⟩
      · rcases List.mem_cons.mp hmem with heq | hmem2
        · have hv : v = JVal.jstr t := (Prod.mk.injEq _ _ _ _ ▸ heq.symm).2
          subst hv
          have hupd : updMember none st "type" (JVal.jstr t) = some (some t, st) := by
            simp [updMember]
          simp only [foldMembers, hupd]
          apply ih
          · exact hnd2
          · exact Or.inr ⟨hknotin, rfl⟩
          · rcases hs with ⟨hmem2, rfl⟩ | ⟨hnotin2, rfl⟩
            · rcases List.mem_cons.mp hmem2 with heq2 | hmem3
              · exact absurd (congrArg Prod.fst heq2) (by simp)
              · exact Or.inl ⟨hmem3, rfl⟩
            · refine Or.inr ⟨?_, rfl⟩
              intro hc
              exact hnotin2 (by simp [hc])
        · exact absurd (List.mem_map_of_mem Prod.fst hmem2) hknotin
      · simp at hnotin
    · by_cases hk2 : k = "status"
      · subst hk2
        rcases hs with ⟨hmem, rfl⟩ | ⟨hnotin, _⟩
        · rcases List.mem_cons.mp hmem with heq | hmem2
          · have hv : v = JVal.jstr s := (Prod.mk.injEq _ _ _ _ ▸ heq.symm).2
            subst hv
            have hupd : updMember ty none "status" (JVal.jstr s) = some (ty, some s) := by
              simp [updMember, hk1]
            simp only [foldMembers, hupd]
            apply ih
            · exact hnd2
            · rcases ht with ⟨hmem2, rfl⟩ | ⟨hnotin2, rfl⟩
              · rcases List.mem_cons.mp hmem2 with heq2 | hmem3
                · exact absurd (congrArg Prod.fst heq2) (by simp)
                · exact Or.inl ⟨hmem3, rfl⟩
              · refine Or.inr ⟨?_, rfl⟩
                intro hc
                exact hnotin2 (by simp [hc])
            · exact Or.inr ⟨hknotin, rfl⟩
          · exact absurd (List.mem_map_of_mem Prod.fst hmem2) hknotin
        · simp at hnotin
      · have hupd : updMember ty st k v = some (ty, st) := by
          simp [updMember, hk1, hk2]
        simp only [foldMembers, hupd]
        apply ih
        · exact hnd2
        · rcases ht with ⟨hmem, rfl⟩ | ⟨hnotin, rfl⟩
          · rcases List.mem_cons.mp hmem with heq | hmem2
            · exact absurd (congrArg Prod.fst heq) (by simpa using fun h => hk1 h.symm)
            · exact Or.inl ⟨hmem2, rfl⟩
          · refine Or.inr ⟨?_, rfl⟩
            intro hc
            exact hnotin (by simp [hc])
        · rcases hs with ⟨hmem, rfl⟩ | ⟨hnotin, rfl⟩
          · rcases List.mem_cons.mp hmem with heq | hmem2
            · exact absurd (congrArg Prod.fst heq) (by simpa using fun h => hk2 h.symm)
            · exact Or.inl ⟨hmem2, rfl⟩
          · refine Or.inr ⟨?_, rfl⟩
            intro hc
            exact hnotin (by simp [hc])


lemma fromStrNetworkEvent_obj (s : String) (r0 : List Char) (h : s.data = '{' :: '"' :: r0) :
    fromStrNetworkEvent s =
      (match parseMembers (s.data.length + 1) none none ('"' :: r0) with
       | some (ev, rest) => if skipWs rest = [] then some ev else none
       | none => none) := by
  simp only [fromStrNetworkEvent, h]
  rfl

lemma fromStr_renderObject (ms : List (String × JVal)) (t s : String)
    (hnd : (ms.map Prod.fst).Nodup)
    (ht : ("type", JVal.jstr t) ∈ ms) (hs : ("status", JVal.jstr s) ∈ ms) :
    fromStrNetworkEvent (renderObject ms) = some ⟨t, s⟩ := by
  rcases hms : ms with _ | ⟨⟨k, v⟩, ms2⟩
  · subst hms; exact absurd ht (List.not_mem_nil _)
  subst hms
  obtain ⟨tl, htl⟩ : ∃ tl, renderMembersTail ((k, v) :: ms2) = renderMember (k, v) ++ tl :=
    ⟨_, rfl⟩
  have hshape : renderMembersTail ((k, v) :: ms2) =
      '"' :: ((escapeList k.data ++ '"' :: ':' :: renderJVal v) ++ tl) := by
    rw [htl]; simp [renderMember]
  have hdata : (renderObject ((k, v) :: ms2)).data =
      '{' :: '"' :: ((escapeList k.data ++ '"' :: ':' :: renderJVal v) ++ tl) := by
    show '{' :: renderMembersTail ((k, v) :: ms2) = _
    rw [hshape]
  rw [fromStrNetworkEvent_obj _ _ hdata]
  rw [show ('"' :: ((escapeList k.data ++ '"' :: ':' :: renderJVal v) ++ tl)) =
      renderMembersTail ((k, v) :: ms2) from hshape.symm]
  have hlen : (renderObject ((k, v) :: ms2)).data.length =
      (renderMembersTail ((k, v) :: ms2)).length + 1 := by
    rw [hdata, hshape]
    simp
  rw [hlen]
  rw [parseMembers_render ((k, v) :: ms2) none none
      ((renderMembersTail ((k, v) :: ms2)).length + 2) (by simp) (by omega)]
  rw [foldMembers_complete ((k, v) :: ms2) none none t s hnd
      (Or.inl ⟨ht, rfl⟩) (Or.inl ⟨hs, rfl⟩)]
  rfl


lemma serializeNetworkEvent_eq_render (e : NetworkEvent) :
    serializeNetworkEvent e =
      renderObject [("type", .jstr e.type), ("status", .jstr e.status)] := by
  have h1 : escapeList ("type" : String).data = ['t', 'y', 'p', 'e'] := rfl
  have h2 : escapeList ("status" : String).data = ['s', 't', 'a', 't', 'u', 's'] := rfl
  show String.mk (serializeNetworkEventData e) = String.mk ('{' :: renderMembersTail _)
  congr 1
  simp [serializeNetworkEventData, renderMembersTail, renderMember, renderJVal, h1, h2,
    List.append_assoc]

/-- Claim C6: encoding any `NetworkEvent` to its JSON line and decoding that
line yields a `NetworkEvent` equal to the original pair of text values. -/
theorem c6_roundtrip (ev : NetworkEvent) :
    fromStrNetworkEvent (serializeNetworkEvent ev) = some ev := by
  rw [serializeNetworkEvent_eq_render]
  rw [fromStr_renderObject _ ev.type ev.status (by simp [List.nodup_cons]) (by simp) (by simp)]

/-- Claim C9: the decoder places no constraint on the value of the inbound
`type` field: for every JSON object (distinct keys, members rendered from
null, boolean or text values, in any order) containing the two text fields
`type` and `status` — whatever their text values — decoding succeeds and
returns exactly those two values, with all other members ignored. -/
theorem c9_inbound_type_unconstrained (ms : List (String × JVal)) (t s : String)
    (hnd : (ms.map Prod.fst).Nodup)
    (ht : ("type", JVal.jstr t) ∈ ms) (hs : ("status", JVal.jstr s) ∈ ms) :
    fromStrNetworkEvent (renderObject ms) = some ⟨t, s⟩ :=
  fromStr_renderObject ms t s hnd ht hs

theorem c9_inbound_type_unconstrained_witness :
    fromStrNetworkEvent (renderObject
      [("type", .jstr "network"), ("extra", .null), ("status", .jstr "up")]) =
      some ⟨"network", "up"⟩ :=
  c9_inbound_type_unconstrained _ "network" "up" (by decide) (by decide) (by decide)

end Plato
